import Mathlib

/-!
# robust_config.c : notify-and-relay pipeline

Shallow embedding of `src/robust_config.c` (functions `safe_read_log`,
`send_dbus_signal`, `watch_log`, `dashboard`).

Conventions of the embedding.

* A byte is a `Nat`; a C buffer is a `List Nat`; a C string read from a buffer
  is the run of bytes before the first zero byte (`cstr`).
* System calls and libdbus calls are not part of the program.  Their outcomes
  are inputs: `FileWorld` gives the outcome of `open`, `flock` and `read` for
  one call of `safe_read_log`, `BusWorld` the outcome of the libdbus calls of
  one call of `send_dbus_signal`, and the loops consume a finite script of
  such outcomes, one entry per iteration.
* `read(fd, buf, count)` on the freshly opened regular file is the Linux call: it
  returns a negative value when the environment reports an error and whenever
  `count` exceeds `SSIZE_MAX` (the kernel rejects the request, with `EFAULT` or
  `EINVAL`); otherwise it transfers the first `min count len` bytes of the file,
  and never more than `MAX_RW_COUNT` bytes in one call.
* A store outside the buffer handed in by the caller is undefined behaviour;
  the embedding reports it as `none`.
* `size_t` arithmetic is arithmetic modulo `2 ^ 64`.
-/

namespace RobustConfig

/-! ## Constants of the source -/

/-- The macro `BUFFER_SIZE`. -/
def BUFFER_SIZE : Nat := 1024

/-- The macro `LOG_FILE`. -/
def LOG_FILE : String := "logs/log.txt"

/-- The macro `OBJECT_PATH`. -/
def OBJECT_PATH : String := "/com/example/LogWatcher"

/-- The macro `INTERFACE_NAME`. -/
def INTERFACE_NAME : String := "com.example.LogWatcher"

/-- The macro `SIGNAL_NAME`. -/
def SIGNAL_NAME : String := "NewLog"

/-- The inotify flag `IN_MODIFY` of `sys/inotify.h`. -/
def IN_MODIFY : Nat := 2

/-- The macro `EXIT_SUCCESS` of `stdlib.h`. -/
def EXIT_SUCCESS : Int := 0

/-- The macro `EXIT_FAILURE` of `stdlib.h`. -/
def EXIT_FAILURE : Int := 1

/-- Number of values of a `size_t`, that is `2 ^ 64`. -/
def SIZE_MOD : Nat := 18446744073709551616

/-- The largest value of a `ssize_t`, that is `2 ^ 63 - 1`. -/
def SSIZE_MAX : Nat := 9223372036854775807

/-- The most bytes one `read` transfers on Linux (`MAX_RW_COUNT` of the kernel):
`INT_MAX` rounded down to a page boundary, `0x7ffff000` with pages of 4 KiB. -/
def MAX_RW_COUNT : Nat := 2147479552

/-! ## Output and call traces -/

/-- One write of the program on a standard stream. -/
inductive Out where
  /-- Call `perror(s)`: writes `s` and the text of `errno` on the standard error stream. -/
  | perror (s : String)
  /-- Call `fprintf(stderr, fmt)` or `fprintf(stderr, fmt, arg)` with a C string argument. -/
  | eprintf (fmt : String) (arg : Option (List Nat))
  /-- Call `fprintf(stderr, fmt, err.message)`: the text is the one libdbus put in the `DBusError`. -/
  | eprintfErr (fmt : String)
  /-- Call `printf(fmt)` or `printf(fmt, arg)` with a C string argument. -/
  | printf (fmt : String) (arg : Option (List Nat))
  deriving DecidableEq

/-- True for the writes that go to the standard error stream. -/
def Out.isStderr : Out → Bool
  | .perror _ => true
  | .eprintf _ _ => true
  | .eprintfErr _ => true
  | .printf _ _ => false

/-- One system call made by `safe_read_log`, with its result. -/
inductive Sys where
  /-- Call `open(LOG_FILE, O_RDONLY)`; `none` is the result `-1`. -/
  | openRd (fd : Option Nat)
  /-- Call `flock(fd, LOCK_SH | LOCK_NB)`; `ok = false` is the result `-1`. -/
  | flockShNb (fd : Nat) (ok : Bool)
  /-- Call `read(fd, content, count)`; `none` is a negative result. -/
  | read (fd : Nat) (count : Nat) (result : Option Nat)
  /-- Call `flock(fd, LOCK_UN)`. -/
  | flockUn (fd : Nat)
  /-- Call `close(fd)`. -/
  | close (fd : Nat)
  deriving DecidableEq

/-- True for a `read` call. -/
def Sys.isRead : Sys → Bool
  | .read _ _ _ => true
  | _ => false

/-! ## C strings and buffers -/

/-- The C string stored at the start of a buffer: the bytes before the first zero byte. -/
def cstr (buf : List Nat) : List Nat :=
  buf.takeWhile (fun b => b != 0)

/-- The bytes of a string literal of the source (ASCII). -/
def cbytes (s : String) : List Nat :=
  s.toList.map Char.toNat

/-- Copy `data` to the start of `buf` (what `read` does with the bytes it transfers);
`none` when `data` does not fit in the buffer. -/
def storeBytes (buf data : List Nat) : Option (List Nat) :=
  if data.length ≤ buf.length then some (data ++ buf.drop data.length) else none

/-- The assignment `buf[i] = v`; `none` when `i` is outside the buffer. -/
def storeByte (buf : List Nat) (i v : Nat) : Option (List Nat) :=
  if i < buf.length then some (buf.set i v) else none

/-! ## Descriptors and locks of the process -/

/-- Descriptors the process has open and descriptors on which it holds a `flock` lock. -/
structure Resources where
  openFds : List Nat
  locks : List Nat
  deriving DecidableEq

/-- The descriptor a successful `open` returns: the lowest number not in use. -/
def lowestFree (fds : List Nat) : Nat :=
  ((List.range (fds.length + 1)).find? (fun n => !fds.contains n)).getD fds.length

/-- Effect of a successful `open` returning `fd`. -/
def Resources.opened (r : Resources) (fd : Nat) : Resources :=
  { r with openFds := fd :: r.openFds }

/-- Effect of a successful `flock(fd, LOCK_SH | LOCK_NB)`. -/
def Resources.locked (r : Resources) (fd : Nat) : Resources :=
  { r with locks := fd :: r.locks }

/-- Effect of `flock(fd, LOCK_UN)`. -/
def Resources.unlocked (r : Resources) (fd : Nat) : Resources :=
  { r with locks := r.locks.erase fd }

/-- Effect of `close(fd)`: the descriptor is gone, and with it any lock held through it. -/
def Resources.closed (r : Resources) (fd : Nat) : Resources :=
  { openFds := r.openFds.erase fd, locks := r.locks.erase fd }

/-! ## `safe_read_log` -/

/-- What the file system answers during one call of `safe_read_log`. -/
structure FileWorld where
  /-- Content of `logs/log.txt` when `open` succeeds; `none` when `open` returns `-1`. -/
  file : Option (List Nat)
  /-- Another open file description holds a conflicting exclusive lock. -/
  exLocked : Bool
  /-- The call of `flock` fails for another reason than a conflicting lock. -/
  lockErr : Bool
  /-- The call of `read` returns a negative value because of the environment: an
  input or output error, an interruption, a buffer range that leaves the address
  space of the process. -/
  readErr : Bool
  deriving DecidableEq

/-- The call `flock(fd, LOCK_SH | LOCK_NB)` returns `-1`: at once when a conflicting
exclusive lock is held, since the request is non-blocking, or on another error. -/
def FileWorld.flockFails (w : FileWorld) : Bool :=
  w.exLocked || w.lockErr

/-- The call `read(fd, content, count)` returns a negative value: on an error of the
environment, and always when `count` exceeds `SSIZE_MAX`, a request the kernel
rejects (the range of the buffer leaves the address space of the process, `EFAULT`,
or `count` is negative as a `ssize_t`, `EINVAL`). -/
def FileWorld.readFails (w : FileWorld) (count : Nat) : Bool :=
  w.readErr || decide (SSIZE_MAX < count)

/-- Result of a call of `safe_read_log` that returns. -/
structure ReadResult where
  /-- Return value. -/
  ret : Int
  /-- The buffer `content` after the call. -/
  content : List Nat
  /-- Descriptors and locks after the call. -/
  res : Resources
  /-- Writes on the standard streams, in order. -/
  out : List Out
  /-- System calls made, in order. -/
  calls : List Sys
  deriving DecidableEq

/-- The function `safe_read_log(content, content_size)`.  `none`: the call stores
outside `content`. -/
def safe_read_log (w : FileWorld) (r : Resources) (content : List Nat)
    (content_size : Nat) : Option ReadResult :=
  match w.file with
  | none =>
    -- fd == -1
    some { ret := -1, content := content, res := r,
           out := [.perror "Failed to open log file for reading"],
           calls := [.openRd none] }
  | some bytes =>
    let fd := lowestFree r.openFds
    let r1 := r.opened fd
    if w.flockFails then
      -- flock(fd, LOCK_SH | LOCK_NB) == -1
      some { ret := -1, content := content, res := r1.closed fd,
             out := [.perror "Failed to acquire shared lock"],
             calls := [.openRd (some fd), .flockShNb fd false, .close fd] }
    else
      let r2 := r1.locked fd
      -- content_size - 1 in size_t
      let count := (content_size + (SIZE_MOD - 1)) % SIZE_MOD
      if w.readFails count then
        -- bytes_read < 0
        some { ret := -1, content := content, res := (r2.unlocked fd).closed fd,
               out := [.perror "Error reading log file"],
               calls := [.openRd (some fd), .flockShNb fd true, .read fd count none,
                         .flockUn fd, .close fd] }
      else
        -- one call transfers at most MAX_RW_COUNT bytes
        let data := bytes.take (min count MAX_RW_COUNT)
        let bytes_read := data.length
        match storeBytes content data with
        | none => none
        | some c1 =>
          -- content[bytes_read] = 0
          match storeByte c1 bytes_read 0 with
          | none => none
          | some c2 =>
            some { ret := 0, content := c2, res := (r2.unlocked fd).closed fd,
                   out := [],
                   calls := [.openRd (some fd), .flockShNb fd true,
                             .read fd count (some bytes_read), .flockUn fd, .close fd] }

/-! ## Bus messages and `send_dbus_signal` -/

/-- The four D-Bus message types. -/
inductive MsgType where
  | methodCall
  | methodReturn
  | error
  | signal
  deriving DecidableEq

/-- One argument in the body of a D-Bus message. -/
inductive Arg where
  /-- An argument of type `DBUS_TYPE_STRING`. -/
  | str (s : List Nat)
  /-- An argument of type `DBUS_TYPE_INT32`. -/
  | int32 (v : Int)
  /-- An argument of type `DBUS_TYPE_BOOLEAN`. -/
  | boolean (b : Bool)
  /-- An argument of any other D-Bus type, given by its type code. -/
  | other (typeCode : Nat)
  deriving DecidableEq

/-- A D-Bus message: type, object path, interface, member and body. -/
structure BusMessage where
  type : MsgType
  path : String
  interface : String
  member : String
  args : List Arg
  deriving DecidableEq

/-- What libdbus answers during one call of `send_dbus_signal`. -/
structure BusWorld where
  /-- The call `dbus_bus_get` sets the error. -/
  connErr : Bool
  /-- The call `dbus_bus_get` returns `NULL` without setting the error. -/
  connNull : Bool
  /-- The call `dbus_message_new_signal` returns `NULL`. -/
  msgNull : Bool
  /-- The call `dbus_message_append_args` returns false. -/
  appendFails : Bool
  /-- The call `dbus_connection_send` returns false. -/
  sendFails : Bool
  deriving DecidableEq

/-- Effects of one call of `send_dbus_signal`. -/
structure SendResult where
  /-- Writes on the standard streams, in order. -/
  out : List Out
  /-- Messages handed to the bus and flushed. -/
  sent : List BusMessage
  deriving DecidableEq

/-- The function `send_dbus_signal(log_message)`. -/
def send_dbus_signal (b : BusWorld) (log_message : List Nat) : SendResult :=
  if b.connErr then
    { out := [.eprintfErr "DBus Connection Error: %s\n"], sent := [] }
  else if b.connNull then
    { out := [.eprintf "DBus connection is NULL\n" none], sent := [] }
  else if b.msgNull then
    { out := [.eprintf "Failed to create DBus message\n" none], sent := [] }
  else if b.appendFails then
    { out := [.eprintf "Failed to append arguments to DBus message\n" none], sent := [] }
  else
    let msg : BusMessage :=
      { type := .signal, path := OBJECT_PATH, interface := INTERFACE_NAME,
        member := SIGNAL_NAME, args := [.str log_message] }
    if b.sendFails then
      { out := [.eprintf "Failed to send DBus message: Out Of Memory\n" none,
                .printf "Sent DBus signal with log: %s\n" (some log_message)],
        sent := [] }
    else
      { out := [.printf "Sent DBus signal with log: %s\n" (some log_message)],
        sent := [msg] }

/-- Some step of `send_dbus_signal` fails: bus connection, message creation,
argument encoding or send. -/
def BusWorld.fails (b : BusWorld) : Bool :=
  b.connErr || b.connNull || b.msgNull || b.appendFails || b.sendFails

/-! ## `watch_log` -/

/-- Result of one `read` on the inotify descriptor. -/
inductive Await where
  /-- The call returns a negative length. -/
  | error
  /-- The call returns at least one event; `mask` is the mask of the first event in
  the buffer, the only one the loop looks at. -/
  | event (mask : Nat)
  deriving DecidableEq

/-- Everything the environment answers during one iteration of the loop of `watch_log`. -/
structure Iter where
  await : Await
  fs : FileWorld
  bus : BusWorld
  deriving DecidableEq

/-- Operations of the relay loop, as seen from outside. -/
inductive Op where
  /-- A `read` on the inotify descriptor returned. -/
  | await
  /-- A call of `safe_read_log`. -/
  | extract
  /-- A call of `send_dbus_signal` with this C string. -/
  | publish (payload : List Nat)
  deriving DecidableEq

/-- How one execution of a loop body ends. -/
inductive Next where
  /-- Control goes back to the head of the loop. -/
  | continue
  /-- The statement `break` is executed. -/
  | break
  /-- A store outside a buffer happened. -/
  | fault
  deriving DecidableEq

/-- Effects of one execution of the body of the loop of `watch_log`. -/
structure Body where
  next : Next
  ops : List Op
  out : List Out
  sent : List BusMessage
  res : Resources
  deriving DecidableEq

/-- The body of `while (1)` in `watch_log`, for one answer of the environment. -/
def watch_body (r : Resources) (it : Iter) : Body :=
  match it.await with
  | .error =>
    -- length < 0
    { next := .break, ops := [.await], out := [.perror "Error reading inotify events"],
      sent := [], res := r }
  | .event mask =>
    if mask &&& IN_MODIFY ≠ 0 then
      -- char content[BUFFER_SIZE] = {0}
      match safe_read_log it.fs r (List.replicate BUFFER_SIZE 0) BUFFER_SIZE with
      | none => { next := .fault, ops := [.await, .extract], out := [], sent := [], res := r }
      | some rr =>
        if rr.ret = 0 then
          let s := send_dbus_signal it.bus (cstr rr.content)
          { next := .continue, ops := [.await, .extract, .publish (cstr rr.content)],
            out := rr.out ++ s.out, sent := s.sent, res := rr.res }
        else
          { next := .continue, ops := [.await, .extract],
            out := rr.out ++ [.eprintf "Failed to safely read log file\n" none],
            sent := [], res := rr.res }
    else
      { next := .continue, ops := [.await], out := [], sent := [], res := r }

/-- Where a function with an endless loop stands once the script of the environment
has been consumed. -/
inductive Status where
  /-- The function returned this value. -/
  | returned (code : Int)
  /-- The function is in its loop, waiting for the next event. -/
  | waiting
  /-- A store outside a buffer happened. -/
  | crashed
  deriving DecidableEq

/-- Effects of a run of a loop. -/
structure Run where
  status : Status
  ops : List Op
  out : List Out
  sent : List BusMessage
  res : Resources
  deriving DecidableEq

/-- The statement `while (1)` of `watch_log` followed by the code after the loop,
run against a finite script of answers. -/
def watch_loop (inotify_fd : Nat) (r : Resources) : List Iter → Run
  | [] => { status := .waiting, ops := [], out := [], sent := [], res := r }
  | it :: rest =>
    let b := watch_body r it
    match b.next with
    | .continue =>
      let t := watch_loop inotify_fd b.res rest
      { status := t.status, ops := b.ops ++ t.ops, out := b.out ++ t.out,
        sent := b.sent ++ t.sent, res := t.res }
    | .break =>
      -- inotify_rm_watch(inotify_fd, wd); close(inotify_fd); return EXIT_SUCCESS
      { status := .returned EXIT_SUCCESS, ops := b.ops, out := b.out, sent := b.sent,
        res := b.res.closed inotify_fd }
    | .fault =>
      { status := .crashed, ops := b.ops, out := b.out, sent := b.sent, res := b.res }

/-- What the kernel answers to the set-up calls of `watch_log`. -/
structure WatchSetup where
  /-- The call `inotify_init` returns a negative value. -/
  initFails : Bool
  /-- The call `inotify_add_watch` returns a negative value. -/
  addWatchFails : Bool
  deriving DecidableEq

/-- The function `watch_log()`. -/
def watch_log (s : WatchSetup) (r : Resources) (script : List Iter) : Run :=
  if s.initFails then
    { status := .returned EXIT_FAILURE, ops := [],
      out := [.perror "Failed to initialize inotify"], sent := [], res := r }
  else
    let inotify_fd := lowestFree r.openFds
    let r1 := r.opened inotify_fd
    if s.addWatchFails then
      { status := .returned EXIT_FAILURE, ops := [],
        out := [.perror "Failed to add inotify watch"], sent := [],
        res := r1.closed inotify_fd }
    else
      let t := watch_loop inotify_fd r1 script
      { t with out := Out.printf "Monitoring %s for changes...\n" (some (cbytes LOG_FILE)) :: t.out }

/-! ## `dashboard` -/

/-- The call `dbus_message_is_signal(msg, iface, name)` of libdbus: the message is a
signal with this member and this interface. -/
def dbus_message_is_signal (msg : BusMessage) (iface name : String) : Bool :=
  msg.type == .signal && msg.member == name && msg.interface == iface

/-- The call `dbus_message_get_args(msg, &err, DBUS_TYPE_STRING, &s, DBUS_TYPE_INVALID)`
of libdbus: succeeds when the first argument of the message is a string and
returns it; arguments after the requested ones are ignored. -/
def dbus_message_get_args_string (msg : BusMessage) : Option (List Nat) :=
  match msg.args with
  | .str s :: _ => some s
  | _ => none

/-- The body of `while (1)` in `dashboard` for one poll; `none` is a poll that finds
no message. -/
def dashboard_body : Option BusMessage → List Out
  | none =>
    -- usleep(100000); continue
    []
  | some msg =>
    if dbus_message_is_signal msg INTERFACE_NAME SIGNAL_NAME then
      match dbus_message_get_args_string msg with
      | some received_msg => [.printf "Received message: %s\n" (some received_msg)]
      | none => [.eprintfErr "Failed to get message arguments: %s\n"]
    else
      []

/-- Effects of a run of `dashboard`. -/
structure DashRun where
  status : Status
  out : List Out
  deriving DecidableEq

/-- The statement `while (1)` of `dashboard`, run against a finite script of polls. -/
def dashboard_loop : List (Option BusMessage) → DashRun
  | [] => { status := .waiting, out := [] }
  | p :: rest =>
    let t := dashboard_loop rest
    { status := t.status, out := dashboard_body p ++ t.out }

/-- What libdbus answers to the set-up calls of `dashboard`. -/
structure DashSetup where
  /-- The call `dbus_bus_get` sets the error. -/
  connErr : Bool
  /-- The call `dbus_bus_get` returns `NULL` without setting the error. -/
  connNull : Bool
  /-- The call `dbus_bus_add_match` sets the error. -/
  matchErr : Bool
  deriving DecidableEq

/-- The function `dashboard()`. -/
def dashboard (s : DashSetup) (polls : List (Option BusMessage)) : DashRun :=
  if s.connErr then
    { status := .returned EXIT_FAILURE, out := [.eprintfErr "DBus Connection Error: %s\n"] }
  else if s.connNull then
    { status := .returned EXIT_FAILURE, out := [.eprintf "DBus connection is NULL\n" none] }
  else if s.matchErr then
    { status := .returned EXIT_FAILURE, out := [.eprintfErr "DBus Add Match Error: %s\n"] }
  else
    let t := dashboard_loop polls
    { t with out := Out.printf "Listening for D-Bus signals...\n" none :: t.out }

/-- The payloads printed by `dashboard`: the arguments of its
`printf("Received message: %s\n", received_msg)` calls, in order. -/
def printed (out : List Out) : List (List Nat) :=
  out.filterMap fun o =>
    match o with
    | .printf "Received message: %s\n" (some s) => some s
    | _ => none

/-! ## Definitions that follow the words of the specification -/

/-- The payload the specification gives for one extraction with capacity `max_size`:
no payload when the open fails, when the shared lock is not granted (a conflicting
exclusive lock is held) or when the read fails; otherwise the first `max_size - 1`
bytes of the file, read as a terminated string. -/
def spec_extract (w : FileWorld) (max_size : Nat) : Option (List Nat) :=
  match w.file with
  | none => none
  | some P => if w.flockFails || w.readErr then none else some (cstr (P.take (max_size - 1)))

/-- A ChangeEvent of the specification: the watcher returned and the event it reports
is a modification. -/
def Iter.isChange (it : Iter) : Bool :=
  match it.await with
  | .error => false
  | .event mask => mask &&& IN_MODIFY != 0

/-- The operations the specification gives for one ChangeEvent: await, one extraction
attempt and, when the extraction succeeds, one publish of the extracted payload. -/
def spec_relay_ops (it : Iter) : List Op :=
  match spec_extract it.fs BUFFER_SIZE with
  | some payload => [.await, .extract, .publish payload]
  | none => [.await, .extract]

/-- The operations for one answer of the watcher that is not an error: those of a
ChangeEvent when it is one, and the await alone when the event is not a modification. -/
def relay_ops (it : Iter) : List Op :=
  if it.isChange then spec_relay_ops it else [.await]

/-- True for an extraction attempt. -/
def Op.isExtract : Op → Bool
  | .extract => true
  | _ => false

/-- True for a publish call. -/
def Op.isPublish : Op → Bool
  | .publish _ => true
  | _ => false

/-- The identity test of the specification on all three names: object path, interface
and member equal the constants the publisher sends with. -/
def matches_triple (msg : BusMessage) : Bool :=
  msg.path == OBJECT_PATH && msg.interface == INTERFACE_NAME && msg.member == SIGNAL_NAME

/-- The payload of a message that is a `NewLog` signal of interface
`com.example.LogWatcher` whose body is exactly one string argument. -/
def payload_one_string (msg : BusMessage) : Option (List Nat) :=
  if msg.type = .signal ∧ msg.interface = INTERFACE_NAME ∧ msg.member = SIGNAL_NAME then
    match msg.args with
    | [.str s] => some s
    | _ => none
  else none

/-- The payload of a message that is a `NewLog` signal of interface
`com.example.LogWatcher` whose first argument is a string. -/
def payload_first_string (msg : BusMessage) : Option (List Nat) :=
  if msg.type = .signal ∧ msg.interface = INTERFACE_NAME ∧ msg.member = SIGNAL_NAME then
    match msg.args with
    | .str s :: _ => some s
    | _ => none
  else none

/-- The messages of a script of polls, in arrival order. -/
def arrivals (polls : List (Option BusMessage)) : List BusMessage :=
  polls.filterMap id

/-- True when a list of writes has one on the standard error stream. -/
def hasDiagnostic (out : List Out) : Bool :=
  out.any Out.isStderr

/-! ## Lemmas on C strings, `size_t` and descriptors -/

theorem lowestFree_not_mem (fds : List Nat) : lowestFree fds ∉ fds := by
  have hex : ∃ n ∈ List.range (fds.length + 1), n ∉ fds := by
    by_contra hcon
    push_neg at hcon
    have hsub : List.range (fds.length + 1) ⊆ fds := fun n hn => hcon n hn
    have hle := (List.subperm_of_subset (List.nodup_range _) hsub).length_le
    simp at hle
  obtain ⟨n, hn, hnot⟩ := hex
  unfold lowestFree
  cases hfind : (List.range (fds.length + 1)).find? (fun n => !fds.contains n) with
  | none =>
    rw [List.find?_eq_none] at hfind
    have := hfind n hn
    simp [hnot] at this
  | some m =>
    have := List.find?_some hfind
    simpa using this

theorem cstr_append_zero (data rest : List Nat) : cstr (data ++ 0 :: rest) = cstr data := by
  induction data with
  | nil => simp [cstr]
  | cons a t ih =>
    unfold cstr at ih ⊢
    by_cases ha : a = 0
    · subst ha; simp
    · simp [List.takeWhile_cons, ha, ih]

theorem cstr_of_no_zero (data : List Nat) (h : ∀ b ∈ data, b ≠ 0) : cstr data = data := by
  unfold cstr
  rw [List.takeWhile_eq_self_iff]
  intro b hb
  simpa using h b hb

theorem cstr_length_le (data : List Nat) : (cstr data).length ≤ data.length := by
  unfold cstr
  exact (List.takeWhile_sublist _).length_le

theorem size_sub_one (n : Nat) (h1 : 1 ≤ n) (hn : n < SIZE_MOD) :
    (n + (SIZE_MOD - 1)) % SIZE_MOD = n - 1 := by
  unfold SIZE_MOD at *
  omega

theorem closed_opened (r : Resources) (fd : Nat) (h : fd ∉ r.locks) :
    (r.opened fd).closed fd = r := by
  cases r with
  | mk o l =>
    simp only [Resources.opened, Resources.closed, List.erase_cons_head]
    simp only [Resources.mk.injEq, true_and]
    exact List.erase_of_not_mem h

theorem closed_unlocked_locked_opened (r : Resources) (fd : Nat) (h : fd ∉ r.locks) :
    (((r.opened fd).locked fd).unlocked fd).closed fd = r := by
  cases r with
  | mk o l =>
    simp only [Resources.opened, Resources.locked, Resources.unlocked, Resources.closed,
      List.erase_cons_head]
    simp only [Resources.mk.injEq, true_and]
    exact List.erase_of_not_mem h

/-! ## The success path of `safe_read_log` -/

theorem store_terminated (buf data : List Nat) (h : data.length < buf.length) :
    (storeBytes buf data).bind (fun c1 => storeByte c1 data.length 0)
      = some (data ++ 0 :: buf.drop (data.length + 1)) := by
  have hle : data.length ≤ buf.length := Nat.le_of_lt h
  have hlen : (data ++ buf.drop data.length).length = buf.length := by
    simp [List.length_append, List.length_drop]; omega
  simp only [storeBytes, hle, if_true, Option.some_bind, storeByte, hlen, h]
  rw [List.set_append]
  simp only [Nat.lt_irrefl, if_false, Nat.sub_self]
  rw [List.drop_eq_getElem_cons h, List.set_cons_zero]

theorem safe_read_log_open_fails (w : FileWorld) (r : Resources) (buf : List Nat) (n : Nat)
    (hfile : w.file = none) :
    safe_read_log w r buf n = some
      { ret := -1, content := buf, res := r,
        out := [.perror "Failed to open log file for reading"],
        calls := [.openRd none] } := by
  unfold safe_read_log
  rw [hfile]

theorem safe_read_log_lock_fails (w : FileWorld) (r : Resources) (buf : List Nat) (n : Nat)
    (P : List Nat) (hfile : w.file = some P) (hlock : w.flockFails = true) :
    safe_read_log w r buf n = some
      { ret := -1, content := buf,
        res := (r.opened (lowestFree r.openFds)).closed (lowestFree r.openFds),
        out := [.perror "Failed to acquire shared lock"],
        calls := [.openRd (some (lowestFree r.openFds)),
                  .flockShNb (lowestFree r.openFds) false, .close (lowestFree r.openFds)] } := by
  unfold safe_read_log
  rw [hfile]
  dsimp only
  rw [hlock, if_pos rfl]

theorem readFails_of_readErr (w : FileWorld) (count : Nat) (h : w.readErr = true) :
    w.readFails count = true := by
  unfold FileWorld.readFails
  rw [h]
  rfl

theorem readFails_false_iff (w : FileWorld) (count : Nat) :
    w.readFails count = false ↔ w.readErr = false ∧ count ≤ SSIZE_MAX := by
  unfold FileWorld.readFails
  rw [Bool.or_eq_false_iff, decide_eq_false_iff_not, Nat.not_lt]

theorem safe_read_log_read_fails (w : FileWorld) (r : Resources) (buf : List Nat) (n : Nat)
    (P : List Nat) (hfile : w.file = some P) (hlock : w.flockFails = false)
    (hread : w.readFails ((n + (SIZE_MOD - 1)) % SIZE_MOD) = true) :
    safe_read_log w r buf n = some
      { ret := -1, content := buf,
        res := ((((r.opened (lowestFree r.openFds)).locked (lowestFree r.openFds)).unlocked
                  (lowestFree r.openFds)).closed (lowestFree r.openFds)),
        out := [.perror "Error reading log file"],
        calls := [.openRd (some (lowestFree r.openFds)), .flockShNb (lowestFree r.openFds) true,
                  .read (lowestFree r.openFds) ((n + (SIZE_MOD - 1)) % SIZE_MOD) none,
                  .flockUn (lowestFree r.openFds), .close (lowestFree r.openFds)] } := by
  unfold safe_read_log
  rw [hfile]
  dsimp only
  rw [hlock, hread, if_neg Bool.false_ne_true, if_pos rfl]

/-- On the path where `open`, `flock` and `read` succeed the call either stores outside
the buffer or returns 0 with the resources computed by the four calls. -/
theorem safe_read_log_read_ok (w : FileWorld) (r : Resources) (buf : List Nat) (n : Nat)
    (P : List Nat) (hfile : w.file = some P) (hlock : w.flockFails = false)
    (hread : w.readFails ((n + (SIZE_MOD - 1)) % SIZE_MOD) = false)
    (rr : ReadResult) (h : safe_read_log w r buf n = some rr) :
    rr.ret = 0 ∧
    rr.res = ((((r.opened (lowestFree r.openFds)).locked (lowestFree r.openFds)).unlocked
                  (lowestFree r.openFds)).closed (lowestFree r.openFds)) ∧
    rr.out = [] ∧
    rr.calls = [.openRd (some (lowestFree r.openFds)), .flockShNb (lowestFree r.openFds) true,
                  .read (lowestFree r.openFds) ((n + (SIZE_MOD - 1)) % SIZE_MOD)
                    (some (P.take
                      (min ((n + (SIZE_MOD - 1)) % SIZE_MOD) MAX_RW_COUNT)).length),
                  .flockUn (lowestFree r.openFds), .close (lowestFree r.openFds)] := by
  unfold safe_read_log at h
  rw [hfile] at h
  dsimp only at h
  rw [hlock, hread, if_neg Bool.false_ne_true, if_neg Bool.false_ne_true] at h
  cases h1 : storeBytes buf (P.take (min ((n + (SIZE_MOD - 1)) % SIZE_MOD) MAX_RW_COUNT)) with
  | none => rw [h1] at h; cases h
  | some c1 =>
    rw [h1] at h
    dsimp only at h
    cases h2 : storeByte c1
        (P.take (min ((n + (SIZE_MOD - 1)) % SIZE_MOD) MAX_RW_COUNT)).length 0 with
    | none => rw [h2] at h; cases h
    | some c2 =>
      rw [h2] at h
      dsimp only at h
      cases h
      exact ⟨rfl, rfl, rfl, rfl⟩

theorem safe_read_log_success (w : FileWorld) (r : Resources) (buf : List Nat) (n : Nat)
    (P : List Nat) (hfile : w.file = some P) (hlock : w.flockFails = false)
    (hread : w.readErr = false) (hcap : buf.length = n) (h1 : 1 ≤ n)
    (hn : n - 1 ≤ SSIZE_MAX) :
    safe_read_log w r buf n = some
      { ret := 0,
        content := P.take (min (n - 1) MAX_RW_COUNT)
          ++ 0 :: buf.drop ((P.take (min (n - 1) MAX_RW_COUNT)).length + 1),
        res := ((((r.opened (lowestFree r.openFds)).locked (lowestFree r.openFds)).unlocked
                  (lowestFree r.openFds)).closed (lowestFree r.openFds)),
        out := [],
        calls := [.openRd (some (lowestFree r.openFds)), .flockShNb (lowestFree r.openFds) true,
                  .read (lowestFree r.openFds) (n - 1)
                    (some (P.take (min (n - 1) MAX_RW_COUNT)).length),
                  .flockUn (lowestFree r.openFds), .close (lowestFree r.openFds)] } := by
  have hlt : (P.take (min (n - 1) MAX_RW_COUNT)).length < buf.length := by
    have h2 := List.length_take_le (min (n - 1) MAX_RW_COUNT) P
    have h3 : min (n - 1) MAX_RW_COUNT ≤ n - 1 := Nat.min_le_left _ _
    omega
  have hst := store_terminated buf (P.take (min (n - 1) MAX_RW_COUNT)) hlt
  have hmod : n < SIZE_MOD := by
    unfold SSIZE_MAX at hn
    unfold SIZE_MOD
    omega
  have hrf : w.readFails (n - 1) = false := (readFails_false_iff w (n - 1)).2 ⟨hread, hn⟩
  unfold safe_read_log
  rw [hfile]
  dsimp only
  rw [hlock, if_neg Bool.false_ne_true, size_sub_one n h1 hmod, hrf, if_neg Bool.false_ne_true]
  cases h1s : storeBytes buf (P.take (min (n - 1) MAX_RW_COUNT)) with
  | none => simp [h1s] at hst
  | some c1 =>
    simp only [h1s, Option.some_bind] at hst
    dsimp only
    rw [hst]

/-! ## Content Extractor: round trip, truncation, contention, scoped resources -/

/-- What a call with a buffer of `n` bytes, `1 ≤ n`, does when `open`, `flock` and `read`
succeed: it returns 0 and the buffer holds the bytes transferred, the first `n - 1`
bytes of the file up to the limit of one `read`, followed by the terminator. -/
theorem safe_read_log_content (w : FileWorld) (r : Resources) (buf : List Nat) (n : Nat)
    (P : List Nat) (hfile : w.file = some P) (hlock : w.flockFails = false)
    (hread : w.readErr = false) (hcap : buf.length = n) (h1 : 1 ≤ n)
    (hn : n - 1 ≤ SSIZE_MAX) :
    ∃ rr, safe_read_log w r buf n = some rr ∧ rr.ret = 0 ∧ rr.out = [] ∧
      rr.content = P.take (min (n - 1) MAX_RW_COUNT)
        ++ 0 :: buf.drop ((P.take (min (n - 1) MAX_RW_COUNT)).length + 1) :=
  ⟨_, safe_read_log_success w r buf n P hfile hlock hread hcap h1 hn, rfl, rfl, rfl⟩

/-- Below the limit of one `read` the bytes transferred are the first `n - 1` bytes
of the file. -/
theorem safe_read_log_content_small (w : FileWorld) (r : Resources) (buf : List Nat)
    (n : Nat) (P : List Nat) (hfile : w.file = some P) (hlock : w.flockFails = false)
    (hread : w.readErr = false) (hcap : buf.length = n) (h1 : 1 ≤ n)
    (hmax : n - 1 ≤ MAX_RW_COUNT) :
    ∃ rr, safe_read_log w r buf n = some rr ∧ rr.ret = 0 ∧ rr.out = [] ∧
      rr.content = P.take (n - 1) ++ 0 :: buf.drop ((P.take (n - 1)).length + 1) := by
  have hn : n - 1 ≤ SSIZE_MAX := le_trans hmax (by decide)
  have hmin : min (n - 1) MAX_RW_COUNT = n - 1 := Nat.min_eq_left hmax
  have h := safe_read_log_content w r buf n P hfile hlock hread hcap h1 hn
  rw [hmin] at h
  exact h

/-- Above the limit of one `read` only `MAX_RW_COUNT` bytes of a longer file arrive,
and the terminator is stored at index `MAX_RW_COUNT`. -/
theorem safe_read_log_content_large (w : FileWorld) (r : Resources) (buf : List Nat)
    (n : Nat) (P : List Nat) (hfile : w.file = some P) (hlock : w.flockFails = false)
    (hread : w.readErr = false) (hcap : buf.length = n) (hbig : MAX_RW_COUNT < n - 1)
    (hn : n - 1 ≤ SSIZE_MAX) (hlen : MAX_RW_COUNT ≤ P.length) :
    ∃ rr, safe_read_log w r buf n = some rr ∧ rr.ret = 0 ∧
      rr.content = P.take MAX_RW_COUNT ++ 0 :: buf.drop (MAX_RW_COUNT + 1) ∧
      (P.take MAX_RW_COUNT).length = MAX_RW_COUNT := by
  have h1 : 1 ≤ n := by omega
  have hmin : min (n - 1) MAX_RW_COUNT = MAX_RW_COUNT := Nat.min_eq_right (Nat.le_of_lt hbig)
  have htl : (P.take MAX_RW_COUNT).length = MAX_RW_COUNT := by
    rw [List.length_take]
    exact Nat.min_eq_left hlen
  obtain ⟨rr, hrr, hret, _, hcontent⟩ :=
    safe_read_log_content w r buf n P hfile hlock hread hcap h1 hn
  rw [hmin, htl] at hcontent
  exact ⟨rr, hrr, hret, hcontent, htl⟩

/-- C1, as amended: for every file content `P` without a zero byte and every buffer
capacity `max_size` with `len(P) < max_size` and `max_size - 1` no more than the
`0x7ffff000` bytes one `read` transfers, when the open, the non-blocking shared lock
and the read succeed, `safe_read_log` returns 0 and the buffer read as a terminated
string is exactly `P`. -/
theorem safe_read_log_round_trip (w : FileWorld) (r : Resources) (buf : List Nat)
    (max_size : Nat) (P : List Nat)
    (hopen : w.file = some P) (hlock : w.flockFails = false) (hread : w.readErr = false)
    (hcap : buf.length = max_size) (hlen : P.length < max_size)
    (hmax : max_size - 1 ≤ MAX_RW_COUNT)
    (hnul : ∀ b ∈ P, b ≠ 0) :
    ∃ rr, safe_read_log w r buf max_size = some rr ∧ rr.ret = 0 ∧ cstr rr.content = P := by
  have h1 : 1 ≤ max_size := by omega
  obtain ⟨rr, hrr, hret, _, hcontent⟩ :=
    safe_read_log_content_small w r buf max_size P hopen hlock hread hcap h1 hmax
  refine ⟨rr, hrr, hret, ?_⟩
  have htake : P.take (max_size - 1) = P := List.take_of_length_le (by omega)
  rw [hcontent, cstr_append_zero, htake]
  exact cstr_of_no_zero P hnul

/-- Witness of `safe_read_log_round_trip`: the file holds the two bytes `Hi`, the
buffer has four bytes. -/
theorem safe_read_log_round_trip_witness :
    ∃ rr, safe_read_log ⟨some [72, 105], false, false, false⟩ ⟨[0, 1, 2], []⟩ [0, 0, 0, 0] 4 = some rr
      ∧ rr.ret = 0 ∧ cstr rr.content = [72, 105] :=
  safe_read_log_round_trip ⟨some [72, 105], false, false, false⟩ ⟨[0, 1, 2], []⟩ [0, 0, 0, 0] 4
    [72, 105] rfl rfl rfl rfl (by decide) (by decide) (by decide)

/-- C1 fails as stated, at three inputs.  A file of three bytes `A`, zero, `B` fits a
buffer of eight bytes, the open, the lock and the read succeed, the call returns 0, and
the buffer read as a terminated string is the single byte `A`, not the file content.
When the open and the lock succeed but the read fails, the call returns -1.  And with a
capacity of `0x7ffff002` bytes and a file of `0x7ffff001` bytes `A`, the read transfers
`0x7ffff000` bytes only: the call returns 0 and the string read back is one byte
shorter than the file. -/
theorem safe_read_log_round_trip_counterexample :
    (safe_read_log ⟨some [65, 0, 66], false, false, false⟩ ⟨[], []⟩ (List.replicate 8 0) 8).map
        (fun rr => (rr.ret, rr.content, cstr rr.content))
      = some (0, [65, 0, 66, 0, 0, 0, 0, 0], [65])
    ∧ (safe_read_log ⟨some [65, 66], false, false, true⟩ ⟨[], []⟩ (List.replicate 8 0) 8).map
        (fun rr => rr.ret) = some (-1)
    ∧ (∃ rr, safe_read_log ⟨some (List.replicate (MAX_RW_COUNT + 1) 65), false, false, false⟩
          ⟨[], []⟩ (List.replicate (MAX_RW_COUNT + 2) 0) (MAX_RW_COUNT + 2) = some rr ∧
        rr.ret = 0 ∧ cstr rr.content = List.replicate MAX_RW_COUNT 65 ∧
        cstr rr.content ≠ List.replicate (MAX_RW_COUNT + 1) 65) := by
  refine ⟨by decide, by decide, ?_⟩
  obtain ⟨rr, hrr, hret, hcontent, _⟩ :=
    safe_read_log_content_large ⟨some (List.replicate (MAX_RW_COUNT + 1) 65), false, false, false⟩
      ⟨[], []⟩ (List.replicate (MAX_RW_COUNT + 2) 0) (MAX_RW_COUNT + 2)
      (List.replicate (MAX_RW_COUNT + 1) 65) rfl rfl rfl (List.length_replicate _ _)
      (by omega) (by decide) (by rw [List.length_replicate]; omega)
  have hstr : cstr rr.content = List.replicate MAX_RW_COUNT 65 := by
    rw [hcontent, cstr_append_zero, List.take_replicate,
      Nat.min_eq_left (Nat.le_succ MAX_RW_COUNT)]
    apply cstr_of_no_zero
    intro b hb
    rw [List.eq_of_mem_replicate hb]
    decide
  refine ⟨rr, hrr, hret, hstr, ?_⟩
  rw [hstr]
  intro heq
  have hlen := congrArg List.length heq
  rw [List.length_replicate, List.length_replicate] at hlen
  omega

/-- C2, as amended: for every file content `P` and every buffer capacity `max_size`
with `1 ≤ max_size ≤ len(P)` and `max_size - 1` no more than the `0x7ffff000` bytes one
`read` transfers, when the open, the lock and the read succeed, `safe_read_log` returns
0, the first `max_size - 1` bytes of the buffer are the first `max_size - 1` bytes of
`P`, the byte at index `max_size - 1` is the terminator, and the extracted payload is
at most `max_size - 1` bytes long; in the relay loop, with its buffer of 1024 zero
bytes, every extracted payload is at most 1023 bytes long. -/
theorem safe_read_log_truncation (w : FileWorld) (r : Resources) (buf : List Nat)
    (max_size : Nat) (P : List Nat)
    (hopen : w.file = some P) (hlock : w.flockFails = false) (hread : w.readErr = false)
    (hcap : buf.length = max_size) (h1 : 1 ≤ max_size) (hlen : max_size ≤ P.length)
    (hmax : max_size - 1 ≤ MAX_RW_COUNT) :
    (∃ rr, safe_read_log w r buf max_size = some rr ∧ rr.ret = 0 ∧
      rr.content.take (max_size - 1) = P.take (max_size - 1) ∧
      rr.content[max_size - 1]? = some 0 ∧
      rr.content.length = max_size ∧
      (cstr rr.content).length ≤ max_size - 1) ∧
    (∀ (w1 : FileWorld) (r1 : Resources) (rr : ReadResult),
      safe_read_log w1 r1 (List.replicate BUFFER_SIZE 0) BUFFER_SIZE = some rr →
      rr.ret = 0 → (cstr rr.content).length ≤ 1023) := by
  constructor
  · obtain ⟨rr, hrr, hret, _, hcontent⟩ :=
      safe_read_log_content_small w r buf max_size P hopen hlock hread hcap h1 hmax
    have hdl : (P.take (max_size - 1)).length = max_size - 1 := by
      rw [List.length_take]; omega
    refine ⟨rr, hrr, hret, ?_, ?_, ?_, ?_⟩
    · rw [hcontent, List.take_append_of_le_length (by omega)]
      rw [List.take_of_length_le (by omega)]
    · rw [hcontent, List.getElem?_append_right (by omega), hdl]
      simp
    · rw [hcontent, List.length_append, List.length_cons, List.length_drop, hdl]
      omega
    · rw [hcontent, cstr_append_zero]
      exact le_trans (cstr_length_le _) (by omega)
  · intro w1 r1 rr hrr hret
    cases hf : w1.file with
    | none =>
      rw [safe_read_log_open_fails w1 r1 _ _ hf] at hrr
      cases hrr
      cases hret
    | some Q =>
      cases hl : w1.flockFails with
      | true =>
        rw [safe_read_log_lock_fails w1 r1 _ _ Q hf hl] at hrr
        cases hrr
        cases hret
      | false =>
        cases hr : w1.readErr with
        | true =>
          rw [safe_read_log_read_fails w1 r1 _ _ Q hf hl (readFails_of_readErr w1 _ hr)] at hrr
          cases hrr
          cases hret
        | false =>
          obtain ⟨rr2, hrr2, _, _, hcontent⟩ :=
            safe_read_log_content_small w1 r1 (List.replicate BUFFER_SIZE 0) BUFFER_SIZE Q
              hf hl hr (by simp) (by decide) (by decide)
          rw [hrr2] at hrr
          cases hrr
          rw [hcontent, cstr_append_zero]
          refine le_trans (cstr_length_le _) ?_
          rw [List.length_take]
          exact le_trans (Nat.min_le_left _ _) (by decide)

/-- Witness of `safe_read_log_truncation`: a file of five bytes, a buffer of three. -/
theorem safe_read_log_truncation_witness :
    ∃ rr, safe_read_log ⟨some [65, 66, 67, 68, 69], false, false, false⟩ ⟨[0, 1, 2], []⟩
        [9, 9, 9] 3 = some rr ∧ rr.ret = 0 ∧
      rr.content.take (3 - 1) = [65, 66, 67, 68, 69].take (3 - 1) ∧
      rr.content[3 - 1]? = some 0 ∧
      rr.content.length = 3 ∧
      (cstr rr.content).length ≤ 3 - 1 :=
  (safe_read_log_truncation ⟨some [65, 66, 67, 68, 69], false, false, false⟩ ⟨[0, 1, 2], []⟩
    [9, 9, 9] 3 [65, 66, 67, 68, 69] rfl rfl rfl rfl (by decide) (by decide) (by decide)).1

/-- C2 fails as stated, at three inputs.  With capacity 0 the count `content_size - 1`
wraps to `2 ^ 64 - 1`, a request the kernel rejects: the open and the lock succeed and
the call returns -1 through the `bytes_read < 0` branch.  When the environment makes
the read fail the call returns -1 as well.  And with a capacity of `0x7ffff002` bytes
and a file as long, the read transfers `0x7ffff000` bytes only: the call returns 0, the
terminator is at index `max_size - 2` and the byte at index `max_size - 1` is the 7 the
buffer held before the call. -/
theorem safe_read_log_truncation_counterexample :
    (safe_read_log ⟨some [65], false, false, false⟩ ⟨[], []⟩ [] 0).map
        (fun rr => (rr.ret, rr.out)) = some (-1, [.perror "Error reading log file"])
    ∧ (safe_read_log ⟨some [65, 66], false, false, true⟩ ⟨[], []⟩ [0, 0] 2).map
        (fun rr => rr.ret) = some (-1)
    ∧ (∃ rr, safe_read_log ⟨some (List.replicate (MAX_RW_COUNT + 2) 65), false, false, false⟩
          ⟨[], []⟩ (List.replicate (MAX_RW_COUNT + 2) 7) (MAX_RW_COUNT + 2) = some rr ∧
        rr.ret = 0 ∧ rr.content[MAX_RW_COUNT + 2 - 2]? = some 0 ∧
        rr.content[MAX_RW_COUNT + 2 - 1]? = some 7) := by
  refine ⟨by decide, by decide, ?_⟩
  obtain ⟨rr, hrr, hret, hcontent, htl⟩ :=
    safe_read_log_content_large ⟨some (List.replicate (MAX_RW_COUNT + 2) 65), false, false, false⟩
      ⟨[], []⟩ (List.replicate (MAX_RW_COUNT + 2) 7) (MAX_RW_COUNT + 2)
      (List.replicate (MAX_RW_COUNT + 2) 65) rfl rfl rfl (List.length_replicate _ _)
      (by omega) (by decide) (by rw [List.length_replicate]; omega)
  refine ⟨rr, hrr, hret, ?_, ?_⟩
  · rw [hcontent, List.getElem?_append_right (by rw [htl]; omega), htl]
    have hidx : MAX_RW_COUNT + 2 - 2 - MAX_RW_COUNT = 0 := by omega
    rw [hidx, List.getElem?_cons_zero]
  · rw [hcontent, List.getElem?_append_right (by rw [htl]; omega), htl]
    have hidx : MAX_RW_COUNT + 2 - 1 - MAX_RW_COUNT = 0 + 1 := by omega
    rw [hidx, List.getElem?_cons_succ, List.getElem?_drop, List.getElem?_replicate]
    rw [if_pos (by omega)]

/-! ### The loop body of `watch_log`, path by path -/

theorem watch_body_error (r : Resources) (it : Iter) (h : it.await = .error) :
    watch_body r it =
      { next := .break, ops := [.await], out := [.perror "Error reading inotify events"],
        sent := [], res := r } := by
  unfold watch_body
  rw [h]

theorem watch_body_skip (r : Resources) (it : Iter) (mask : Nat) (h : it.await = .event mask)
    (hm : ¬ (mask &&& IN_MODIFY ≠ 0)) :
    watch_body r it =
      { next := .continue, ops := [.await], out := [], sent := [], res := r } := by
  unfold watch_body
  rw [h]
  dsimp only
  rw [if_neg hm]

theorem watch_body_extract_fail (r : Resources) (it : Iter) (mask : Nat)
    (h : it.await = .event mask) (hm : mask &&& IN_MODIFY ≠ 0) (rr : ReadResult)
    (hrr : safe_read_log it.fs r (List.replicate BUFFER_SIZE 0) BUFFER_SIZE = some rr)
    (hret : rr.ret ≠ 0) :
    watch_body r it =
      { next := .continue, ops := [.await, .extract],
        out := rr.out ++ [.eprintf "Failed to safely read log file\n" none],
        sent := [], res := rr.res } := by
  unfold watch_body
  rw [h]
  dsimp only
  rw [if_pos hm, hrr]
  dsimp only
  rw [if_neg hret]

theorem watch_body_extract_ok (r : Resources) (it : Iter) (mask : Nat)
    (h : it.await = .event mask) (hm : mask &&& IN_MODIFY ≠ 0) (rr : ReadResult)
    (hrr : safe_read_log it.fs r (List.replicate BUFFER_SIZE 0) BUFFER_SIZE = some rr)
    (hret : rr.ret = 0) :
    watch_body r it =
      { next := .continue, ops := [.await, .extract, .publish (cstr rr.content)],
        out := rr.out ++ (send_dbus_signal it.bus (cstr rr.content)).out,
        sent := (send_dbus_signal it.bus (cstr rr.content)).sent, res := rr.res } := by
  unfold watch_body
  rw [h]
  dsimp only
  rw [if_pos hm, hrr]
  dsimp only
  rw [if_pos hret]

/-- C3: for every file state in which a conflicting exclusive lock is held,
`safe_read_log` returns -1 without performing any read and leaves the buffer of the
caller byte for byte as it was; in `watch_log` the iteration for that event hands no
message to the bus and makes no publish call. -/
theorem contention_fails_fast (r : Resources) (buf : List Nat) (n : Nat) (it : Iter)
    (hex : it.fs.exLocked = true) :
    (∃ rr, safe_read_log it.fs r buf n = some rr ∧ rr.ret = -1 ∧ rr.content = buf ∧
      ∀ c ∈ rr.calls, c.isRead = false) ∧
    (watch_body r it).sent = [] ∧ (∀ o ∈ (watch_body r it).ops, o.isPublish = false) := by
  have hcall : ∀ (b : List Nat) (m : Nat), ∃ rr, safe_read_log it.fs r b m = some rr ∧
      rr.ret = -1 ∧ rr.content = b ∧ ∀ c ∈ rr.calls, c.isRead = false := by
    intro b m
    cases hf : it.fs.file with
    | none =>
      refine ⟨_, safe_read_log_open_fails it.fs r b m hf, rfl, rfl, ?_⟩
      intro c hc
      simp only [List.mem_singleton] at hc
      subst hc
      rfl
    | some P =>
      have hlock : it.fs.flockFails = true := by
        unfold FileWorld.flockFails
        rw [hex]
        rfl
      refine ⟨_, safe_read_log_lock_fails it.fs r b m P hf hlock, rfl, rfl, ?_⟩
      intro c hc
      simp only [List.mem_cons, List.mem_singleton, List.not_mem_nil, or_false] at hc
      rcases hc with hc | hc | hc <;> subst hc <;> rfl
  refine ⟨hcall buf n, ?_⟩
  cases ha : it.await with
  | error =>
    rw [watch_body_error r it ha]
    refine ⟨rfl, ?_⟩
    intro o ho
    simp only [List.mem_singleton] at ho
    subst ho
    rfl
  | event mask =>
    by_cases hm : mask &&& IN_MODIFY ≠ 0
    · obtain ⟨rr, hrr, hret, _, _⟩ := hcall (List.replicate BUFFER_SIZE 0) BUFFER_SIZE
      have hne : rr.ret ≠ 0 := by rw [hret]; decide
      rw [watch_body_extract_fail r it mask ha hm rr hrr hne]
      refine ⟨rfl, ?_⟩
      intro o ho
      simp only [List.mem_cons, List.mem_singleton, List.not_mem_nil, or_false] at ho
      rcases ho with ho | ho <;> subst ho <;> rfl
    · rw [watch_body_skip r it mask ha hm]
      refine ⟨rfl, ?_⟩
      intro o ho
      simp only [List.mem_singleton] at ho
      subst ho
      rfl

/-- Witness of `contention_fails_fast`: a writer holds the exclusive lock on a file of
two bytes when a modification event arrives. -/
theorem contention_fails_fast_witness :
    (∃ rr, safe_read_log (Iter.mk (.event 2) ⟨some [72, 105], true, false, false⟩
          ⟨false, false, false, false, false⟩).fs ⟨[0, 1, 2], []⟩ [7, 7, 7] 3 = some rr ∧
      rr.ret = -1 ∧ rr.content = [7, 7, 7]) ∧
    (watch_body ⟨[0, 1, 2], []⟩ (Iter.mk (.event 2) ⟨some [72, 105], true, false, false⟩
          ⟨false, false, false, false, false⟩)).sent = [] :=
  have h := contention_fails_fast ⟨[0, 1, 2], []⟩ [7, 7, 7] 3
    (Iter.mk (.event 2) ⟨some [72, 105], true, false, false⟩ ⟨false, false, false, false, false⟩) rfl
  ⟨h.1.elim fun rr hrr => ⟨rr, hrr.1, hrr.2.1, hrr.2.2.1⟩, h.2.1⟩

/-- C8: on every exit path of `safe_read_log` (open failure, lock failure, read
failure, success) the descriptor it opened is closed and the shared lock it acquired is
released before it returns: whatever the result, the open descriptors and the held
locks after the call are those before the call, a descriptor that was opened is closed
by the last system call, and a lock that was acquired is released; and a call with a
buffer of `content_size ≥ 1` bytes does return. -/
theorem safe_read_log_scoped (w : FileWorld) (r : Resources) (buf : List Nat) (n : Nat)
    (hwf : ∀ d ∈ r.locks, d ∈ r.openFds) :
    (∀ rr, safe_read_log w r buf n = some rr →
      rr.res = r ∧
      (∀ fd, Sys.openRd (some fd) ∈ rr.calls → rr.calls.getLast? = some (.close fd)) ∧
      (∀ fd, Sys.flockShNb fd true ∈ rr.calls → Sys.flockUn fd ∈ rr.calls)) ∧
    (buf.length = n → 1 ≤ n → n < SIZE_MOD → ∃ rr, safe_read_log w r buf n = some rr) := by
  have hfresh : lowestFree r.openFds ∉ r.locks :=
    fun hmem => lowestFree_not_mem r.openFds (hwf _ hmem)
  constructor
  · intro rr hrr
    cases hf : w.file with
    | none =>
      rw [safe_read_log_open_fails w r buf n hf] at hrr
      cases hrr
      simp
    | some P =>
      cases hl : w.flockFails with
      | true =>
        rw [safe_read_log_lock_fails w r buf n P hf hl] at hrr
        cases hrr
        refine ⟨closed_opened r _ hfresh, ?_, ?_⟩
        · intro fd hfd
          simp at hfd
          simp [hfd]
        · intro fd hfd
          simp at hfd
      | false =>
        cases hr : w.readFails ((n + (SIZE_MOD - 1)) % SIZE_MOD) with
        | true =>
          rw [safe_read_log_read_fails w r buf n P hf hl hr] at hrr
          cases hrr
          refine ⟨closed_unlocked_locked_opened r _ hfresh, ?_, ?_⟩
          · intro fd hfd
            simp at hfd
            simp [hfd]
          · intro fd hfd
            simp at hfd
            simp [hfd]
        | false =>
          obtain ⟨_, hres, _, hcalls⟩ := safe_read_log_read_ok w r buf n P hf hl hr rr hrr
          rw [hres, hcalls]
          refine ⟨closed_unlocked_locked_opened r _ hfresh, ?_, ?_⟩
          · intro fd hfd
            simp at hfd
            simp [hfd]
          · intro fd hfd
            simp at hfd
            simp [hfd]
  · intro hcap h1 hn
    cases hf : w.file with
    | none => exact ⟨_, safe_read_log_open_fails w r buf n hf⟩
    | some P =>
      cases hl : w.flockFails with
      | true => exact ⟨_, safe_read_log_lock_fails w r buf n P hf hl⟩
      | false =>
        cases hr : w.readFails ((n + (SIZE_MOD - 1)) % SIZE_MOD) with
        | true => exact ⟨_, safe_read_log_read_fails w r buf n P hf hl hr⟩
        | false =>
          rw [size_sub_one n h1 hn] at hr
          obtain ⟨hre, hle⟩ := (readFails_false_iff w (n - 1)).1 hr
          exact ⟨_, safe_read_log_success w r buf n P hf hl hre hcap h1 hle⟩

/-- Witness of `safe_read_log_scoped`: the process has four descriptors open and holds
a lock on descriptor 5; the call returns and leaves both sets as they were. -/
theorem safe_read_log_scoped_witness :
    ∃ rr, safe_read_log ⟨some [72, 105], false, false, false⟩ ⟨[0, 1, 2, 5], [5]⟩ [0, 0, 0, 0] 4
        = some rr ∧ rr.res = ⟨[0, 1, 2, 5], [5]⟩ :=
  have h := safe_read_log_scoped ⟨some [72, 105], false, false, false⟩ ⟨[0, 1, 2, 5], [5]⟩
    [0, 0, 0, 0] 4 (by decide)
  (h.2 rfl (by decide) (by decide)).elim fun rr hrr => ⟨rr, hrr, (h.1 rr hrr).1⟩

/-! ## Relay loop -/

/-- The extraction of the relay loop always returns, and it agrees with the payload
of the specification. -/
theorem relay_extract (w : FileWorld) (r : Resources) :
    ∃ rr, safe_read_log w r (List.replicate BUFFER_SIZE 0) BUFFER_SIZE = some rr ∧
      ((spec_extract w BUFFER_SIZE = none ∧ rr.ret = -1 ∧ hasDiagnostic rr.out = true) ∨
       (spec_extract w BUFFER_SIZE = some (cstr rr.content) ∧ rr.ret = 0)) := by
  cases hf : w.file with
  | none =>
    refine ⟨_, safe_read_log_open_fails w r _ _ hf, Or.inl ⟨?_, rfl, rfl⟩⟩
    simp only [spec_extract, hf]
  | some P =>
    cases hl : w.flockFails with
    | true =>
      refine ⟨_, safe_read_log_lock_fails w r _ _ P hf hl, Or.inl ⟨?_, rfl, rfl⟩⟩
      simp only [spec_extract, hf, hl, Bool.true_or, if_true]
    | false =>
      cases hr : w.readErr with
      | true =>
        refine ⟨_, safe_read_log_read_fails w r _ _ P hf hl (readFails_of_readErr w _ hr),
          Or.inl ⟨?_, rfl, rfl⟩⟩
        simp only [spec_extract, hf, hl, hr, Bool.or_true, if_true]
      | false =>
        obtain ⟨rr, hrr, hret, _, hcontent⟩ :=
          safe_read_log_content_small w r (List.replicate BUFFER_SIZE 0) BUFFER_SIZE P hf hl hr
            (by simp) (by decide) (by decide)
        refine ⟨rr, hrr, Or.inr ⟨?_, hret⟩⟩
        simp only [spec_extract, hf, hl, hr, Bool.or_false, Bool.false_eq_true, if_false]
        rw [hcontent, cstr_append_zero]

theorem isChange_iff (it : Iter) :
    it.isChange = true ↔ ∃ mask, it.await = .event mask ∧ mask &&& IN_MODIFY ≠ 0 := by
  unfold Iter.isChange
  cases it.await with
  | error => simp
  | event mask => simp

/-- The body of the relay loop on a ChangeEvent: it goes back to the head of the loop
after the operations the specification gives. -/
theorem watch_body_change (r : Resources) (it : Iter) (h : it.isChange = true) :
    (watch_body r it).next = .continue ∧ (watch_body r it).ops = spec_relay_ops it := by
  obtain ⟨mask, ha, hm⟩ := (isChange_iff it).1 h
  obtain ⟨rr, hrr, hcase⟩ := relay_extract it.fs r
  rcases hcase with ⟨hspec, hret, _⟩ | ⟨hspec, hret⟩
  · have hne : rr.ret ≠ 0 := by rw [hret]; decide
    rw [watch_body_extract_fail r it mask ha hm rr hrr hne]
    simp only [spec_relay_ops, hspec, and_self]
  · rw [watch_body_extract_ok r it mask ha hm rr hrr hret]
    simp only [spec_relay_ops, hspec, and_self]

/-- The body of the relay loop on an answer that is not an error. -/
theorem watch_body_no_error (r : Resources) (it : Iter) (h : it.await ≠ .error) :
    (watch_body r it).next = .continue ∧ (watch_body r it).ops = relay_ops it := by
  unfold relay_ops
  cases hc : it.isChange with
  | true => simpa using watch_body_change r it hc
  | false =>
    cases ha : it.await with
    | error => exact absurd ha h
    | event mask =>
      have hm : ¬ (mask &&& IN_MODIFY ≠ 0) := by
        intro hm
        have := (isChange_iff it).2 ⟨mask, ha, hm⟩
        rw [hc] at this
        cases this
      rw [watch_body_skip r it mask ha hm]
      simp

theorem watch_loop_continue (fd : Nat) (r : Resources) (it : Iter) (rest : List Iter)
    (h : (watch_body r it).next = .continue) :
    watch_loop fd r (it :: rest) =
      { status := (watch_loop fd (watch_body r it).res rest).status,
        ops := (watch_body r it).ops ++ (watch_loop fd (watch_body r it).res rest).ops,
        out := (watch_body r it).out ++ (watch_loop fd (watch_body r it).res rest).out,
        sent := (watch_body r it).sent ++ (watch_loop fd (watch_body r it).res rest).sent,
        res := (watch_loop fd (watch_body r it).res rest).res } := by
  rw [watch_loop]
  dsimp only
  rw [h]

theorem watch_loop_break (fd : Nat) (r : Resources) (it : Iter) (rest : List Iter)
    (h : (watch_body r it).next = .break) :
    watch_loop fd r (it :: rest) =
      { status := .returned EXIT_SUCCESS, ops := (watch_body r it).ops,
        out := (watch_body r it).out, sent := (watch_body r it).sent,
        res := (watch_body r it).res.closed fd } := by
  rw [watch_loop]
  dsimp only
  rw [h]

/-- The relay loop on a script without watcher error: it is still waiting at the
end, and its operations are those of the answers, one after the other. -/
theorem watch_loop_no_error (fd : Nat) (script : List Iter)
    (hok : ∀ it ∈ script, it.await ≠ .error) (r : Resources) :
    (watch_loop fd r script).status = .waiting ∧
    (watch_loop fd r script).ops = script.flatMap relay_ops := by
  induction script generalizing r with
  | nil => simp [watch_loop]
  | cons it rest ih =>
    obtain ⟨hnext, hops⟩ := watch_body_no_error r it (hok it (List.mem_cons_self _ _))
    have ih2 := ih (fun x hx => hok x (List.mem_cons_of_mem _ hx)) (watch_body r it).res
    rw [watch_loop_continue fd r it rest hnext]
    simp only [List.flatMap_cons, hops, ih2.1, ih2.2, and_self]

theorem watch_log_ready (s : WatchSetup) (r : Resources) (script : List Iter)
    (hinit : s.initFails = false) (hadd : s.addWatchFails = false) :
    (watch_log s r script).status
        = (watch_loop (lowestFree r.openFds) (r.opened (lowestFree r.openFds)) script).status ∧
    (watch_log s r script).ops
        = (watch_loop (lowestFree r.openFds) (r.opened (lowestFree r.openFds)) script).ops := by
  unfold watch_log
  rw [hinit, hadd]
  simp only [Bool.false_eq_true, if_false, and_self]

theorem countP_extract_relay_ops (script : List Iter) :
    (script.flatMap relay_ops).countP Op.isExtract = script.countP Iter.isChange := by
  induction script with
  | nil => rfl
  | cons it rest ih =>
    rw [List.flatMap_cons, List.countP_append, ih, List.countP_cons]
    unfold relay_ops spec_relay_ops
    cases hc : it.isChange with
    | false => simp [List.countP_cons, Op.isExtract]
    | true =>
      cases spec_extract it.fs BUFFER_SIZE with
      | none => simp [List.countP_cons, Op.isExtract]; omega
      | some p => simp [List.countP_cons, Op.isExtract]; omega

theorem countP_publish_relay_ops (script : List Iter) :
    (script.flatMap relay_ops).countP Op.isPublish
      = script.countP (fun it => it.isChange && (spec_extract it.fs BUFFER_SIZE).isSome) := by
  induction script with
  | nil => rfl
  | cons it rest ih =>
    rw [List.flatMap_cons, List.countP_append, ih, List.countP_cons]
    unfold relay_ops spec_relay_ops
    cases hc : it.isChange with
    | false => simp [List.countP_cons, Op.isPublish]
    | true =>
      cases spec_extract it.fs BUFFER_SIZE with
      | none => simp [List.countP_cons, Op.isPublish]
      | some p => simp [List.countP_cons, Op.isPublish]; omega

theorem flatMap_relay_ops_change (script : List Iter)
    (hchange : ∀ it ∈ script, it.isChange = true) :
    script.flatMap relay_ops = script.flatMap spec_relay_ops := by
  induction script with
  | nil => rfl
  | cons it rest ih =>
    rw [List.flatMap_cons, List.flatMap_cons, ih (fun x hx => hchange x (List.mem_cons_of_mem _ hx))]
    unfold relay_ops
    rw [hchange it (List.mem_cons_self _ _), if_pos rfl]

/-- C4: in `watch_log`, once set up, on every script of watcher answers without
error, the operation trace is, answer by answer, the await followed for a ChangeEvent
by exactly one extraction attempt and, when the extraction succeeds, exactly one
publish of the extracted payload, all before the next await; the number of extraction
attempts is the number of ChangeEvents and the number of publish calls the number of
ChangeEvents whose extraction succeeds; when all answers are ChangeEvents the trace is
a repetition of await, extract, [publish]. -/
theorem relay_ordering (s : WatchSetup) (r : Resources) (script : List Iter)
    (hinit : s.initFails = false) (hadd : s.addWatchFails = false)
    (hok : ∀ it ∈ script, it.await ≠ .error) :
    (watch_log s r script).status = .waiting ∧
    (watch_log s r script).ops = script.flatMap relay_ops ∧
    (watch_log s r script).ops.countP Op.isExtract = script.countP Iter.isChange ∧
    (watch_log s r script).ops.countP Op.isPublish
      = script.countP (fun it => it.isChange && (spec_extract it.fs BUFFER_SIZE).isSome) ∧
    ((∀ it ∈ script, it.isChange = true) →
      (watch_log s r script).ops = script.flatMap spec_relay_ops) := by
  obtain ⟨hst, hops⟩ := watch_log_ready s r script hinit hadd
  obtain ⟨h1, h2⟩ := watch_loop_no_error (lowestFree r.openFds) script hok
    (r.opened (lowestFree r.openFds))
  rw [hst, hops, h1, h2]
  refine ⟨rfl, rfl, countP_extract_relay_ops script, countP_publish_relay_ops script, ?_⟩
  intro hchange
  exact flatMap_relay_ops_change script hchange

/-- Witness of `relay_ordering`: a modification whose extraction succeeds, an event
that is not a modification, and a modification that finds the file locked. -/
theorem relay_ordering_witness :
    (watch_log ⟨false, false⟩ ⟨[0, 1, 2], []⟩
      [⟨.event 2, ⟨some [72, 105], false, false, false⟩, ⟨false, false, false, false, false⟩⟩,
       ⟨.event 32768, ⟨none, false, false, false⟩, ⟨false, false, false, false, false⟩⟩,
       ⟨.event 2, ⟨some [72, 105], true, false, false⟩, ⟨false, false, false, false, false⟩⟩]).status
      = .waiting ∧
    (watch_log ⟨false, false⟩ ⟨[0, 1, 2], []⟩
      [⟨.event 2, ⟨some [72, 105], false, false, false⟩, ⟨false, false, false, false, false⟩⟩,
       ⟨.event 32768, ⟨none, false, false, false⟩, ⟨false, false, false, false, false⟩⟩,
       ⟨.event 2, ⟨some [72, 105], true, false, false⟩, ⟨false, false, false, false, false⟩⟩]).ops
      = [.await, .extract, .publish [72, 105], .await, .await, .extract] :=
  have h := relay_ordering ⟨false, false⟩ ⟨[0, 1, 2], []⟩
      [⟨.event 2, ⟨some [72, 105], false, false, false⟩, ⟨false, false, false, false, false⟩⟩,
       ⟨.event 32768, ⟨none, false, false, false⟩, ⟨false, false, false, false, false⟩⟩,
       ⟨.event 2, ⟨some [72, 105], true, false, false⟩, ⟨false, false, false, false, false⟩⟩]
      rfl rfl (by decide)
  ⟨h.1, h.2.1.trans (by decide)⟩

theorem hasDiagnostic_append (a b : List Out) :
    hasDiagnostic (a ++ b) = (hasDiagnostic a || hasDiagnostic b) := by
  unfold hasDiagnostic
  exact List.any_append

/-- Every failing step of `send_dbus_signal` writes on the standard error stream. -/
theorem send_dbus_signal_diagnostic (b : BusWorld) (p : List Nat) (h : b.fails = true) :
    hasDiagnostic (send_dbus_signal b p).out = true := by
  obtain ⟨connErr, connNull, msgNull, appendFails, sendFails⟩ := b
  unfold BusWorld.fails at h
  unfold send_dbus_signal
  dsimp only at h ⊢
  cases connErr with
  | true => rfl
  | false =>
    cases connNull with
    | true => rfl
    | false =>
      cases msgNull with
      | true => rfl
      | false =>
        cases appendFails with
        | true => rfl
        | false =>
          cases sendFails with
          | true => rfl
          | false => simp at h

/-- C9: for every change event on which the extraction step (`safe_read_log`) or the
publish step (`send_dbus_signal`: bus connection, message creation, argument encoding
or send) fails, the iteration writes a diagnostic on the standard error stream and goes
back to the head of the loop: `watch_log` does not leave its loop, the run continues
with the next answer of the watcher, and the iteration made exactly one extraction
attempt and at most one publish call. -/
theorem relay_failures_recovered (fd : Nat) (r : Resources) (it : Iter) (rest : List Iter)
    (hchange : it.isChange = true)
    (hfail : (∃ rr, safe_read_log it.fs r (List.replicate BUFFER_SIZE 0) BUFFER_SIZE = some rr
                ∧ rr.ret ≠ 0) ∨ it.bus.fails = true) :
    hasDiagnostic (watch_body r it).out = true ∧
    (watch_body r it).next = .continue ∧
    (watch_body r it).ops.countP Op.isExtract = 1 ∧
    (watch_body r it).ops.countP Op.isPublish ≤ 1 ∧
    (watch_loop fd r [it]).status = .waiting ∧
    (watch_loop fd r (it :: rest)).status = (watch_loop fd (watch_body r it).res rest).status ∧
    (watch_loop fd r (it :: rest)).ops
      = (watch_body r it).ops ++ (watch_loop fd (watch_body r it).res rest).ops := by
  obtain ⟨mask, ha, hm⟩ := (isChange_iff it).1 hchange
  obtain ⟨hnext, hops⟩ := watch_body_change r it hchange
  have hdiag : hasDiagnostic (watch_body r it).out = true := by
    obtain ⟨rr, hrr, hcase⟩ := relay_extract it.fs r
    rcases hcase with ⟨_, hret, _⟩ | ⟨_, hret⟩
    · have hne : rr.ret ≠ 0 := by rw [hret]; decide
      rw [watch_body_extract_fail r it mask ha hm rr hrr hne]
      dsimp only
      rw [hasDiagnostic_append]
      simp [hasDiagnostic, Out.isStderr]
    · rw [watch_body_extract_ok r it mask ha hm rr hrr hret]
      dsimp only
      rcases hfail with ⟨rr2, hrr2, hne⟩ | hbus
      · rw [hrr] at hrr2
        cases hrr2
        exact absurd hret hne
      · rw [hasDiagnostic_append, send_dbus_signal_diagnostic it.bus _ hbus, Bool.or_true]
  have hcount : (watch_body r it).ops.countP Op.isExtract = 1 ∧
      (watch_body r it).ops.countP Op.isPublish ≤ 1 := by
    rw [hops]
    unfold spec_relay_ops
    cases spec_extract it.fs BUFFER_SIZE with
    | none => simp [List.countP_cons, Op.isExtract, Op.isPublish]
    | some p => simp [List.countP_cons, Op.isExtract, Op.isPublish]
  refine ⟨hdiag, hnext, hcount.1, hcount.2, ?_, ?_, ?_⟩
  · rw [watch_loop_continue fd r it [] hnext]
    simp [watch_loop]
  · rw [watch_loop_continue fd r it rest hnext]
  · rw [watch_loop_continue fd r it rest hnext]

/-- Witness of `relay_failures_recovered`: the extraction succeeds and the bus
connection fails. -/
theorem relay_failures_recovered_witness :
    hasDiagnostic (watch_body ⟨[0, 1, 2, 3], []⟩
      ⟨.event 2, ⟨some [72, 105], false, false, false⟩, ⟨true, false, false, false, false⟩⟩).out
        = true ∧
    (watch_body ⟨[0, 1, 2, 3], []⟩
      ⟨.event 2, ⟨some [72, 105], false, false, false⟩, ⟨true, false, false, false, false⟩⟩).next
        = .continue :=
  have h := relay_failures_recovered 3 ⟨[0, 1, 2, 3], []⟩
    ⟨.event 2, ⟨some [72, 105], false, false, false⟩, ⟨true, false, false, false, false⟩⟩ []
    (by decide) (Or.inr rfl)
  ⟨h.1, h.2.1⟩

/-! ## Termination of the two loops -/

theorem watch_loop_error (fd : Nat) (script : List Iter)
    (herr : ∃ it ∈ script, it.await = .error) (r : Resources) :
    (watch_loop fd r script).status = .returned EXIT_SUCCESS := by
  induction script generalizing r with
  | nil =>
    obtain ⟨it, hit, _⟩ := herr
    cases hit
  | cons it rest ih =>
    cases ha : it.await with
    | error =>
      have hb : (watch_body r it).next = .break := by rw [watch_body_error r it ha]
      rw [watch_loop_break fd r it rest hb]
    | event mask =>
      have hne : it.await ≠ .error := by rw [ha]; exact fun h => Await.noConfusion h
      obtain ⟨hnext, _⟩ := watch_body_no_error r it hne
      rw [watch_loop_continue fd r it rest hnext]
      apply ih
      obtain ⟨x, hx, hxe⟩ := herr
      rcases List.mem_cons.1 hx with hx | hx
      · subst hx
        exact absurd hxe hne
      · exact ⟨x, hx, hxe⟩

theorem dashboard_loop_waiting (polls : List (Option BusMessage)) :
    (dashboard_loop polls).status = .waiting := by
  induction polls with
  | nil => rfl
  | cons p rest ih => simpa [dashboard_loop] using ih

/-- C10, as amended: `watch_log` returns with a non-zero status when its setup fails
(inotify initialisation or adding the watch); once setup has succeeded it returns
exactly when a later read on the inotify descriptor fails, and no outcome of an
extraction or of a publish makes it leave its loop.  `dashboard` returns with a
non-zero status when its setup fails (bus connection or match rule); once setup has
succeeded no poll and no inbound message makes it leave its loop. -/
theorem loops_terminal (s : WatchSetup) (r : Resources) (script : List Iter)
    (d : DashSetup) (polls : List (Option BusMessage)) :
    ((s.initFails = true ∨ s.addWatchFails = true) →
      (watch_log s r script).status = .returned EXIT_FAILURE) ∧
    EXIT_FAILURE ≠ 0 ∧
    (s.initFails = false → s.addWatchFails = false →
      ((∀ it ∈ script, it.await ≠ .error) → (watch_log s r script).status = .waiting) ∧
      ((∃ it ∈ script, it.await = .error) →
        ∃ code, (watch_log s r script).status = .returned code)) ∧
    ((d.connErr = true ∨ d.connNull = true ∨ d.matchErr = true) →
      (dashboard d polls).status = .returned EXIT_FAILURE) ∧
    (d.connErr = false → d.connNull = false → d.matchErr = false →
      (dashboard d polls).status = .waiting) := by
  refine ⟨?_, by decide, ?_, ?_, ?_⟩
  · intro h
    unfold watch_log
    cases hi : s.initFails with
    | true => simp
    | false =>
      rcases h with h | h
      · rw [hi] at h; cases h
      · simp [h]
  · intro hinit hadd
    obtain ⟨hst, _⟩ := watch_log_ready s r script hinit hadd
    rw [hst]
    constructor
    · intro hok
      exact (watch_loop_no_error _ script hok _).1
    · intro herr
      exact ⟨EXIT_SUCCESS, watch_loop_error _ script herr _⟩
  · intro h
    unfold dashboard
    cases h1 : d.connErr with
    | true => simp
    | false =>
      cases h2 : d.connNull with
      | true => simp
      | false =>
        rcases h with h | h | h
        · rw [h1] at h; cases h
        · rw [h2] at h; cases h
        · simp [h]
  · intro h1 h2 h3
    unfold dashboard
    simp only [h1, h2, h3, Bool.false_eq_true, if_false]
    exact dashboard_loop_waiting polls

/-- C10 fails as stated.  The setup of `watch_log` succeeds, the first read on the
inotify descriptor fails, and the function leaves its loop and returns `EXIT_SUCCESS`,
which is zero. -/
theorem loops_terminal_counterexample :
    (watch_log ⟨false, false⟩ ⟨[0, 1, 2], []⟩
      [⟨.error, ⟨some [72, 105], false, false, false⟩, ⟨false, false, false, false, false⟩⟩]).status
      = .returned 0 := by
  decide

/-- Witness of `loops_terminal`: both setups succeed, the watcher reports one
modification and the bus delivers one message. -/
theorem loops_terminal_witness :
    (watch_log ⟨false, false⟩ ⟨[0, 1, 2], []⟩
      [⟨.event 2, ⟨none, false, false, false⟩, ⟨true, false, false, false, false⟩⟩]).status
        = .waiting ∧
    (dashboard ⟨false, false, false⟩
      [some ⟨.signal, OBJECT_PATH, INTERFACE_NAME, SIGNAL_NAME, [.int32 7]⟩]).status
        = .waiting :=
  have h := loops_terminal ⟨false, false⟩ ⟨[0, 1, 2], []⟩
      [⟨.event 2, ⟨none, false, false, false⟩, ⟨true, false, false, false, false⟩⟩]
      ⟨false, false, false⟩
      [some ⟨.signal, OBJECT_PATH, INTERFACE_NAME, SIGNAL_NAME, [.int32 7]⟩]
  ⟨(h.2.2.1 rfl rfl).1 (by decide), h.2.2.2.2 rfl rfl rfl⟩

/-! ## Dashboard loop -/

theorem dashboard_loop_out (polls : List (Option BusMessage)) :
    (dashboard_loop polls).out = polls.flatMap dashboard_body := by
  induction polls with
  | nil => rfl
  | cons p rest ih => simp [dashboard_loop, ih]

theorem dashboard_loop_append (pre post : List (Option BusMessage)) :
    (dashboard_loop (pre ++ post)).out = (dashboard_loop pre).out ++ (dashboard_loop post).out := by
  simp [dashboard_loop_out]

theorem printed_append (a b : List Out) : printed (a ++ b) = printed a ++ printed b := by
  unfold printed
  exact List.filterMap_append _ _ _

theorem is_signal_iff (m : BusMessage) :
    dbus_message_is_signal m INTERFACE_NAME SIGNAL_NAME = true ↔
      m.type = .signal ∧ m.interface = INTERFACE_NAME ∧ m.member = SIGNAL_NAME := by
  unfold dbus_message_is_signal
  simp only [Bool.and_eq_true, beq_iff_eq]
  tauto

/-- What one poll prints: the first argument of a `NewLog` signal of the interface
when that argument is a string, nothing otherwise. -/
theorem printed_body (p : Option BusMessage) :
    printed (dashboard_body p) = (p.bind payload_first_string).toList := by
  cases p with
  | none => rfl
  | some m =>
    unfold dashboard_body payload_first_string dbus_message_get_args_string
    simp only [Option.some_bind]
    by_cases h : dbus_message_is_signal m INTERFACE_NAME SIGNAL_NAME = true
    · rw [if_pos h, if_pos ((is_signal_iff m).1 h)]
      cases m.args with
      | nil => rfl
      | cons a t => cases a <;> rfl
    · rw [if_neg h, if_neg (fun hc => h ((is_signal_iff m).2 hc))]
      rfl

theorem printed_loop (polls : List (Option BusMessage)) :
    printed (dashboard_loop polls).out = (arrivals polls).filterMap payload_first_string := by
  induction polls with
  | nil => rfl
  | cons p rest ih =>
    have hout : (dashboard_loop (p :: rest)).out = dashboard_body p ++ (dashboard_loop rest).out :=
      rfl
    rw [hout, printed_append, ih, printed_body]
    cases p with
    | none => rfl
    | some m =>
      unfold arrivals
      simp only [Option.some_bind, List.filterMap_cons, id]
      cases payload_first_string m <;> rfl

theorem payload_one_first (m : BusMessage) (s : List Nat) (h : payload_one_string m = some s) :
    payload_first_string m = some s := by
  unfold payload_one_string at h
  unfold payload_first_string
  split at h
  · rename_i hid
    rw [if_pos hid]
    cases hargs : m.args with
    | nil => rw [hargs] at h; cases h
    | cons a t =>
      rw [hargs] at h
      cases a with
      | str x =>
        cases t with
        | nil => simpa using h
        | cons b u => cases h
      | int32 v => cases h
      | boolean b => cases h
      | other c => cases h
  · cases h

/-- C5, as amended: for every finite sequence of polls, the payloads the dashboard
loop prints are exactly the first arguments of those inbound messages that are `NewLog`
signals of interface `com.example.LogWatcher` whose first argument is a string
(arguments after the first are ignored), in arrival order; every such signal that
carries exactly one string argument is among them, and a well-formed message that
arrives after a message whose argument cannot be decoded is still printed with its
exact payload. -/
theorem dashboard_delivery (polls : List (Option BusMessage)) :
    printed (dashboard_loop polls).out = (arrivals polls).filterMap payload_first_string ∧
    (∀ d : DashSetup, d.connErr = false → d.connNull = false → d.matchErr = false →
      printed (dashboard d polls).out = (arrivals polls).filterMap payload_first_string) ∧
    (∀ m s, payload_one_string m = some s → payload_first_string m = some s) ∧
    (∀ (bad good : BusMessage) (s : List Nat), payload_first_string bad = none →
      payload_one_string good = some s →
      printed (dashboard_loop (polls ++ [some bad, some good])).out
        = printed (dashboard_loop polls).out ++ [s]) := by
  refine ⟨printed_loop polls, ?_, payload_one_first, ?_⟩
  · intro d h1 h2 h3
    unfold dashboard
    simp only [h1, h2, h3, Bool.false_eq_true, if_false]
    have : printed (Out.printf "Listening for D-Bus signals...\n" none :: (dashboard_loop polls).out)
        = printed (dashboard_loop polls).out := rfl
    rw [this]
    exact printed_loop polls
  · intro bad good s hbad hgood
    rw [dashboard_loop_append, printed_append, printed_loop [some bad, some good]]
    simp [arrivals, hbad, payload_one_first good s hgood]

/-- Witness of `dashboard_delivery`: an empty poll, a `NewLog` signal with an integer
argument, then one with a string argument. -/
theorem dashboard_delivery_witness :
    printed (dashboard ⟨false, false, false⟩
      [none, some ⟨.signal, OBJECT_PATH, INTERFACE_NAME, SIGNAL_NAME, [.int32 7]⟩,
       some ⟨.signal, OBJECT_PATH, INTERFACE_NAME, SIGNAL_NAME, [.str [72, 105]]⟩]).out
      = [[72, 105]] :=
  ((dashboard_delivery
      [none, some ⟨.signal, OBJECT_PATH, INTERFACE_NAME, SIGNAL_NAME, [.int32 7]⟩,
       some ⟨.signal, OBJECT_PATH, INTERFACE_NAME, SIGNAL_NAME, [.str [72, 105]]⟩]).2.1
    ⟨false, false, false⟩ rfl rfl rfl).trans (by decide)

/-- C5 fails as stated.  A `NewLog` signal of the interface whose body is a string
followed by an integer does not carry exactly one string argument, and the dashboard
prints its first argument. -/
theorem dashboard_delivery_counterexample :
    printed (dashboard ⟨false, false, false⟩
      [some ⟨.signal, OBJECT_PATH, INTERFACE_NAME, SIGNAL_NAME, [.str [72, 105], .int32 7]⟩]).out
      = [[72, 105]]
    ∧ (arrivals
      [some ⟨.signal, OBJECT_PATH, INTERFACE_NAME, SIGNAL_NAME, [.str [72, 105], .int32 7]⟩]
        ).filterMap payload_one_string = [] := by
  decide

theorem payload_first_string_some (m : BusMessage) (s : List Nat)
    (h : payload_first_string m = some s) :
    m.type = .signal ∧ m.interface = INTERFACE_NAME ∧ m.member = SIGNAL_NAME ∧
      dbus_message_get_args_string m = some s := by
  unfold payload_first_string at h
  split at h
  · rename_i hid
    exact ⟨hid.1, hid.2.1, hid.2.2, h⟩
  · cases h

theorem payload_first_string_path (m : BusMessage) (p : String) :
    payload_first_string { m with path := p } = payload_first_string m := rfl

theorem arrivals_map_path (f : String → String) (polls : List (Option BusMessage)) :
    (arrivals (polls.map (Option.map (fun m => { m with path := f m.path })))).filterMap
        payload_first_string
      = (arrivals polls).filterMap payload_first_string := by
  induction polls with
  | nil => rfl
  | cons p rest ih =>
    cases p with
    | none => simpa [arrivals] using ih
    | some m =>
      unfold arrivals at ih ⊢
      simp only [List.map_cons, Option.map_some', List.filterMap_cons, id]
      rw [payload_first_string_path m (f m.path)]
      cases payload_first_string m with
      | none => exact ih
      | some s => rw [ih]

/-- C6, as amended: a bus message is delivered by the dashboard loop (its payload
printed) only if it is a signal whose interface name and member name both equal the
constants the publisher sends with (`com.example.LogWatcher`, `NewLog`); when every
inbound message differs from them in the interface or in the member, nothing is
delivered; the object path is not compared: replacing the object paths of the inbound
messages by any others leaves what is delivered unchanged. -/
theorem channel_identity (polls : List (Option BusMessage)) :
    (∀ s ∈ printed (dashboard_loop polls).out, ∃ m ∈ arrivals polls,
      m.type = .signal ∧ m.interface = INTERFACE_NAME ∧ m.member = SIGNAL_NAME ∧
      dbus_message_get_args_string m = some s) ∧
    ((∀ m ∈ arrivals polls, m.interface ≠ INTERFACE_NAME ∨ m.member ≠ SIGNAL_NAME) →
      printed (dashboard_loop polls).out = []) ∧
    (∀ f : String → String,
      printed (dashboard_loop (polls.map (Option.map (fun m => { m with path := f m.path })))).out
        = printed (dashboard_loop polls).out) := by
  refine ⟨?_, ?_, ?_⟩
  · intro s hs
    rw [printed_loop, List.mem_filterMap] at hs
    obtain ⟨m, hm, hp⟩ := hs
    exact ⟨m, hm, payload_first_string_some m s hp⟩
  · intro hall
    rw [printed_loop, List.filterMap_eq_nil_iff]
    intro m hm
    cases hp : payload_first_string m with
    | none => rfl
    | some s =>
      obtain ⟨_, hi, hmem, _⟩ := payload_first_string_some m s hp
      rcases hall m hm with h | h
      · exact absurd hi h
      · exact absurd hmem h
  · intro f
    rw [printed_loop, printed_loop, arrivals_map_path]

/-- Witness of `channel_identity`: a signal `NewLog` of another interface. -/
theorem channel_identity_witness :
    printed (dashboard_loop
      [some ⟨.signal, OBJECT_PATH, "org.example.Other", SIGNAL_NAME, [.str [72, 105]]⟩]).out
      = [] :=
  (channel_identity
    [some ⟨.signal, OBJECT_PATH, "org.example.Other", SIGNAL_NAME, [.str [72, 105]]⟩]).2.1
    (by decide)

/-- C6 fails as stated.  A `NewLog` signal of the interface sent on another object
path differs from the triple of the publisher, and the dashboard prints its payload. -/
theorem channel_identity_counterexample :
    matches_triple ⟨.signal, "/org/example/Other", INTERFACE_NAME, SIGNAL_NAME, [.str [72, 105]]⟩
      = false
    ∧ printed (dashboard ⟨false, false, false⟩
      [some ⟨.signal, "/org/example/Other", INTERFACE_NAME, SIGNAL_NAME, [.str [72, 105]]⟩]).out
      = [[72, 105]] := by
  decide

/-- C7, as amended: for every message the dashboard loop pops that is a `NewLog`
signal of the interface but whose argument cannot be decoded as a string, the loop
emits one decode error for that message on the standard error stream and continues
with the next message; a popped message that does not match the signal identity
(interface and member) is dropped without any output, and the loop continues. -/
theorem rejected_messages (pre post : List (Option BusMessage)) (m : BusMessage) :
    (dbus_message_is_signal m INTERFACE_NAME SIGNAL_NAME = true →
      dbus_message_get_args_string m = none →
      (dashboard_loop (pre ++ some m :: post)).out
        = (dashboard_loop pre).out
            ++ Out.eprintfErr "Failed to get message arguments: %s\n" :: (dashboard_loop post).out
      ∧ hasDiagnostic (dashboard_body (some m)) = true) ∧
    (dbus_message_is_signal m INTERFACE_NAME SIGNAL_NAME = false →
      (dashboard_loop (pre ++ some m :: post)).out
        = (dashboard_loop pre).out ++ (dashboard_loop post).out
      ∧ dashboard_body (some m) = []) ∧
    (dashboard_loop (pre ++ some m :: post)).status = .waiting := by
  have hsplit : (dashboard_loop (pre ++ some m :: post)).out
      = (dashboard_loop pre).out ++ (dashboard_body (some m) ++ (dashboard_loop post).out) := by
    rw [dashboard_loop_append]
    rfl
  refine ⟨?_, ?_, dashboard_loop_waiting _⟩
  · intro hsig hargs
    have hbody : dashboard_body (some m)
        = [Out.eprintfErr "Failed to get message arguments: %s\n"] := by
      unfold dashboard_body
      dsimp only
      rw [if_pos hsig, hargs]
    rw [hsplit, hbody]
    exact ⟨rfl, rfl⟩
  · intro hsig
    have hbody : dashboard_body (some m) = [] := by
      unfold dashboard_body
      dsimp only
      rw [hsig]
      rfl
    rw [hsplit, hbody]
    exact ⟨rfl, rfl⟩

/-- Witness of `rejected_messages`: a `NewLog` signal of the interface with an
integer argument, between a well-formed signal and an empty poll. -/
theorem rejected_messages_witness :
    (dashboard_loop
      ([some ⟨.signal, OBJECT_PATH, INTERFACE_NAME, SIGNAL_NAME, [.str [72, 105]]⟩]
        ++ some ⟨.signal, OBJECT_PATH, INTERFACE_NAME, SIGNAL_NAME, [.int32 7]⟩ :: [none])).out
      = (dashboard_loop
          [some ⟨.signal, OBJECT_PATH, INTERFACE_NAME, SIGNAL_NAME, [.str [72, 105]]⟩]).out
        ++ Out.eprintfErr "Failed to get message arguments: %s\n" :: (dashboard_loop [none]).out
    ∧ hasDiagnostic (dashboard_body
        (some ⟨.signal, OBJECT_PATH, INTERFACE_NAME, SIGNAL_NAME, [.int32 7]⟩)) = true :=
  (rejected_messages
    [some ⟨.signal, OBJECT_PATH, INTERFACE_NAME, SIGNAL_NAME, [.str [72, 105]]⟩] [none]
    ⟨.signal, OBJECT_PATH, INTERFACE_NAME, SIGNAL_NAME, [.int32 7]⟩).1 (by decide) rfl

/-- C7 fails as stated.  The signal `NameAcquired` of interface `org.freedesktop.DBus`
does not match the expected signal identity; the dashboard pops it and writes nothing,
on neither stream. -/
theorem rejected_messages_counterexample :
    dbus_message_is_signal
      ⟨.signal, "/org/freedesktop/DBus", "org.freedesktop.DBus", "NameAcquired", [.str [58, 49]]⟩
      INTERFACE_NAME SIGNAL_NAME = false
    ∧ (dashboard_loop
      [some ⟨.signal, "/org/freedesktop/DBus", "org.freedesktop.DBus", "NameAcquired",
        [.str [58, 49]]⟩]).out = [] := by
  decide

end RobustConfig
